import Mathlib

/-!
Verification of the ambient type-declaration file
`src/frontend/src/vite-env.d.ts`.

The file contains, in order:
  1. a `/// <reference types="vite/client" />` directive;
  2. `declare interface ImportMetaEnv { readonly VITE_API_URL?: string; }`;
  3. `declare interface ImportMeta { readonly env: ImportMetaEnv; }`.

We embed the declarations both as data (so that declaration-level facts such
as the recognized key set, optionality, readonly-ness and TypeScript
declaration merging can be stated) and as Lean types (so that value-level
facts about reading the declared fields can be stated). A small raw-value
model together with a structural conformance checker captures what it means
for an untyped environment object to conform to the declared shape. Finally,
a JS-emission model captures that a `.d.ts` file is fully erased before
execution.
-/

namespace ViteEnv

/-- TypeScript types occurring in `vite-env.d.ts` and in the `ImportMetaEnv`
interface of the referenced `vite/client` type library. -/
inductive TSType where
  | string
  | boolean
  | any
  | iface (name : String)
deriving DecidableEq, Repr

/-- One member of a TypeScript interface declaration: its name, whether it is
optional (`?`), whether it is `readonly`, and its declared type. -/
structure FieldDecl where
  name : String
  optional : Bool
  readonly : Bool
  type : TSType
deriving DecidableEq, Repr

/-- A TypeScript interface body: its members, plus whether it carries a
permissive string index signature (`[key: string]: any`). -/
structure InterfaceDecl where
  fields : List FieldDecl
  stringIndex : Bool
deriving DecidableEq, Repr

/-- The members of `ImportMetaEnv` as declared in `vite-env.d.ts` lines 5-8:
exactly one member, `readonly VITE_API_URL?: string`. -/
def ImportMetaEnvFields : List FieldDecl :=
  [⟨"VITE_API_URL", true, true, TSType.string⟩]

/-- The `ImportMetaEnv` interface declared in `vite-env.d.ts`: one optional
readonly string member and no index signature. -/
def ImportMetaEnvDecl : InterfaceDecl :=
  ⟨ImportMetaEnvFields, false⟩

/-- The members of `ImportMeta` as declared in `vite-env.d.ts` lines 10-12:
exactly one member, `readonly env: ImportMetaEnv`, not optional. -/
def ImportMetaFields : List FieldDecl :=
  [⟨"env", false, true, TSType.iface "ImportMetaEnv"⟩]

/-- The `ImportMeta` interface declared in `vite-env.d.ts`. -/
def ImportMetaDecl : InterfaceDecl :=
  ⟨ImportMetaFields, false⟩

/-- The `ImportMetaEnv` interface of the external `vite/client` type library
referenced on line 1 of `vite-env.d.ts`. This library is not part of the
repository; its published declaration is
`interface ImportMetaEnv { [key: string]: any; BASE_URL: string; MODE: string;
DEV: boolean; PROD: boolean; SSR: boolean }` (members neither optional nor
readonly, with a permissive string index signature). -/
def viteClientEnvFields : List FieldDecl :=
  [⟨"BASE_URL", false, false, TSType.string⟩,
   ⟨"MODE", false, false, TSType.string⟩,
   ⟨"DEV", false, false, TSType.boolean⟩,
   ⟨"PROD", false, false, TSType.boolean⟩,
   ⟨"SSR", false, false, TSType.boolean⟩]

/-- The `vite/client` `ImportMetaEnv` interface as an `InterfaceDecl`. -/
def viteClientEnvDecl : InterfaceDecl :=
  ⟨viteClientEnvFields, true⟩

/-- Look a member up by name in an interface member list. -/
def lookupField : List FieldDecl → String → Option FieldDecl
  | [], _ => none
  | f :: fs, k => if f.name = k then some f else lookupField fs k

/-- The type checker's answer for a member access on an interface member
list: the declared type when the member is declared, `none` (rejection)
otherwise. -/
def checkFieldAccess (fields : List FieldDecl) (key : String) : Option TSType :=
  (lookupField fields key).map FieldDecl.type

/-- The type checker's answer for a member access on a full interface
declaration: a declared member wins; otherwise a string index signature
admits the key at type `any`; otherwise the access is rejected. -/
def checkAccessDecl (d : InterfaceDecl) (key : String) : Option TSType :=
  match lookupField d.fields key with
  | some f => some f.type
  | none => if d.stringIndex then some TSType.any else none

/-- The type checker's answer for an assignment to a member: an assignment is
admitted only for a declared member that is not `readonly`. -/
def canAssign (fields : List FieldDecl) (key : String) : Bool :=
  match lookupField fields key with
  | some f => !f.readonly
  | none => false

/-- TypeScript declaration merging on interface member lists: members of the
second declaration are added to the first; a member present in both must be
declared identically, otherwise the merge is a conflict (`none`). -/
def mergeFields (fs : List FieldDecl) : List FieldDecl → Option (List FieldDecl)
  | [] => some fs
  | g :: gs =>
    match lookupField fs g.name with
    | some f => if f = g then mergeFields fs gs else none
    | none =>
      match mergeFields fs gs with
      | some r => some (g :: r)
      | none => none

/-- TypeScript declaration merging on whole interface declarations: member
lists merge, index signatures accumulate. -/
def mergeDecl (a b : InterfaceDecl) : Option InterfaceDecl :=
  (mergeFields a.fields b.fields).map (fun fs => ⟨fs, a.stringIndex || b.stringIndex⟩)

/-- The typed view of the environment shape declared in `vite-env.d.ts`:
`VITE_API_URL` is optional (`Option`) and string-valued. -/
structure ImportMetaEnv where
  VITE_API_URL : Option String
deriving DecidableEq, Repr

/-- The typed view of `ImportMeta` declared in `vite-env.d.ts`: `env` is a
mandatory `ImportMetaEnv`. -/
structure ImportMeta where
  env : ImportMetaEnv
deriving DecidableEq, Repr

/-- Reading `import.meta.env.VITE_API_URL` on the typed view: the stored
value, with no validation, coercion or default substituted. -/
def readVITE_API_URL (e : ImportMetaEnv) : Option String :=
  e.VITE_API_URL

/-- Reading `import.meta.env` on the typed view. -/
def readEnv (m : ImportMeta) : ImportMetaEnv :=
  m.env

/-- A read of the field presented as a state transformer: it returns the
value together with the (unchanged) environment. -/
def readFieldSt (e : ImportMetaEnv) : Option String × ImportMetaEnv :=
  (e.VITE_API_URL, e)

/-- Raw (untyped) JavaScript values, as far as the declared shapes need:
strings, booleans and objects. -/
inductive Value where
  | str (s : String)
  | bool (b : Bool)
  | obj (fields : List (String × Value))

/-- Key lookup in a raw object's field list. -/
def lookupVal : List (String × Value) → String → Option Value
  | [], _ => none
  | (k, v) :: kvs, key => if k = key then some v else lookupVal kvs key

/-- Property read on a raw value: `none` (absent) when the value is not an
object or the key is missing; never a runtime error. -/
def getKey (v : Value) (key : String) : Option Value :=
  match v with
  | Value.obj kvs => lookupVal kvs key
  | _ => none

/-- Does a raw value inhabit a declared TypeScript type? -/
def typeMatches : TSType → Value → Bool
  | TSType.string, Value.str _ => true
  | TSType.boolean, Value.bool _ => true
  | TSType.any, _ => true
  | _, _ => false

/-- A declared member is satisfied by an object's field list when the member
is present with a value of its declared type, or absent but optional. -/
def fieldOk (kvs : List (String × Value)) (f : FieldDecl) : Bool :=
  match lookupVal kvs f.name with
  | some v => typeMatches f.type v
  | none => f.optional

/-- An object field is accounted for by a member list when a member of that
name is declared and the stored value has the declared type. -/
def keyDeclared (fields : List FieldDecl) (kv : String × Value) : Bool :=
  match lookupField fields kv.1 with
  | some f => typeMatches f.type kv.2
  | none => false

/-- Structural conformance of a raw value to an interface member list (as a
closed shape): the value is an object, every declared member is satisfied,
and every present field is declared with the right type. -/
def conformsTo (fields : List FieldDecl) : Value → Bool
  | Value.obj kvs => fields.all (fieldOk kvs) && kvs.all (keyDeclared fields)
  | _ => false

/-- The raw object denoted by a typed `ImportMetaEnv`: the field is present
exactly when the optional value is. -/
def encodeEnv (e : ImportMetaEnv) : Value :=
  Value.obj (match e.VITE_API_URL with
             | none => []
             | some s => [("VITE_API_URL", Value.str s)])

/-- The raw object denoted by a typed `ImportMeta`. -/
def encodeMeta (m : ImportMeta) : Value :=
  Value.obj [("env", encodeEnv m.env)]

/-- The top-level constructs a `.d.ts` file may contain, as far as
`vite-env.d.ts` uses them. -/
inductive TopLevel where
  | referenceDirective (types : String)
  | ambientInterface (name : String) (decl : InterfaceDecl)

/-- The file `src/frontend/src/vite-env.d.ts`, construct by construct. -/
def viteEnvDts : List TopLevel :=
  [TopLevel.referenceDirective "vite/client",
   TopLevel.ambientInterface "ImportMetaEnv" ImportMetaEnvDecl,
   TopLevel.ambientInterface "ImportMeta" ImportMetaDecl]

/-- Executable JavaScript statements (whatever the compiler would emit). -/
inductive Stmt where
  | code (src : String)

/-- The JavaScript emitted for a top-level `.d.ts` construct: ambient
declarations and reference directives are erased by the compiler, so nothing
is emitted. -/
def emit : TopLevel → List Stmt
  | TopLevel.referenceDirective _ => []
  | TopLevel.ambientInterface _ _ => []

/-- All JavaScript emitted for a `.d.ts` file. -/
def emitFile (file : List TopLevel) : List Stmt :=
  (file.map emit).flatten

/-- Running a statement list under an arbitrary single-statement semantics
over an arbitrary program-state type. -/
def runStmts {σ : Type} (step : Stmt → σ → σ) : List Stmt → σ → σ
  | [], s => s
  | st :: sts, s => runStmts step sts (step st s)

/-- A successful raw-object lookup returns a stored pair. -/
theorem lookupVal_mem {kvs : List (String × Value)} {k : String} {v : Value}
    (h : lookupVal kvs k = some v) : (k, v) ∈ kvs := by
  induction kvs with
  | nil => simp [lookupVal] at h
  | cons kv rest ih =>
    obtain ⟨k0, v0⟩ := kv
    by_cases hk : k0 = k
    · subst hk
      simp [lookupVal] at h
      simp [h]
    · simp [lookupVal, hk] at h
      exact List.mem_cons_of_mem _ (ih h)

/-- C1: for every raw value conforming to the environment shape declared in
`vite-env.d.ts`, reading `VITE_API_URL` yields either an explicit absent
state (when the key is unset, with no default substituted) or exactly the
stored string value; it is never a non-string, non-absent value. -/
theorem c1_read_string_or_absent (v : Value)
    (h : conformsTo ImportMetaEnvFields v = true) :
    getKey v "VITE_API_URL" = none ∨
    ∃ s : String, getKey v "VITE_API_URL" = some (Value.str s) := by
  cases v with
  | str s => simp [conformsTo] at h
  | bool b => simp [conformsTo] at h
  | obj kvs =>
    cases hv : lookupVal kvs "VITE_API_URL" with
    | none => exact Or.inl (by simp [getKey, hv])
    | some v0 =>
      right
      have hmem : ("VITE_API_URL", v0) ∈ kvs := lookupVal_mem hv
      simp [conformsTo, List.all_eq_true] at h
      have hd := h.2 "VITE_API_URL" v0 hmem
      simp [keyDeclared, lookupField, ImportMetaEnvFields] at hd
      cases v0 with
      | str s => exact ⟨s, by simp [getKey, hv]⟩
      | bool b => simp [typeMatches] at hd
      | obj l => simp [typeMatches] at hd

/-- Witness for C1 at the concrete conforming object
`{ VITE_API_URL: "http://localhost:8000" }`. -/
theorem c1_read_string_or_absent_witness :
    getKey (Value.obj [("VITE_API_URL", Value.str "http://localhost:8000")])
        "VITE_API_URL" = none ∨
    ∃ s : String,
      getKey (Value.obj [("VITE_API_URL", Value.str "http://localhost:8000")])
          "VITE_API_URL" = some (Value.str s) :=
  c1_read_string_or_absent
    (Value.obj [("VITE_API_URL", Value.str "http://localhost:8000")])
    (by decide)

/-- C2: the shape declared in `vite-env.d.ts` recognizes exactly one key,
`VITE_API_URL`, optional, readonly and string-valued: a member access
type-checks (at type `string`) precisely on that key, and the member list
names that key alone. -/
theorem c2_exactly_one_key :
    (∀ k : String,
      checkFieldAccess ImportMetaEnvFields k =
        if k = "VITE_API_URL" then some TSType.string else none) ∧
    lookupField ImportMetaEnvFields "VITE_API_URL" =
      some ⟨"VITE_API_URL", true, true, TSType.string⟩ ∧
    ImportMetaEnvFields.map FieldDecl.name = ["VITE_API_URL"] := by
  refine ⟨fun k => ?_, rfl, rfl⟩
  by_cases hk : k = "VITE_API_URL"
  · subst hk
    rfl
  · have h2 : ¬("VITE_API_URL" = k) := fun hh => hk hh.symm
    simp [checkFieldAccess, lookupField, ImportMetaEnvFields, h2, hk]

/-- C3: a member access on any key other than `VITE_API_URL` is rejected by
the shape declared in `vite-env.d.ts` (the checker returns no type), and at
runtime reading such a key from a value of the typed shape yields absent
rather than an error. -/
theorem c3_other_keys_rejected (k : String) (e : ImportMetaEnv)
    (h : k ≠ "VITE_API_URL") :
    checkFieldAccess ImportMetaEnvFields k = none ∧
    getKey (encodeEnv e) k = none := by
  have h2 : ¬("VITE_API_URL" = k) := fun hh => h hh.symm
  constructor
  · simp [checkFieldAccess, lookupField, ImportMetaEnvFields, h2]
  · cases hv : e.VITE_API_URL with
    | none => simp [getKey, encodeEnv, hv, lookupVal]
    | some s => simp [getKey, encodeEnv, hv, lookupVal, h2]

/-- Witness for C3 at the concrete key `"BASE_URL"` and the concrete
environment `{ VITE_API_URL: "x" }`. -/
theorem c3_other_keys_rejected_witness :
    checkFieldAccess ImportMetaEnvFields "BASE_URL" = none ∧
    getKey (encodeEnv ⟨some "x"⟩) "BASE_URL" = none :=
  c3_other_keys_rejected "BASE_URL" ⟨some "x"⟩ (by decide)

/-- C4: under TypeScript declaration merging, the `ImportMetaEnv` declared in
`vite-env.d.ts` merges without conflict into the `ImportMetaEnv` of the
referenced `vite/client` library; the effective shape keeps the permissive
string index signature, every built-in key, and additionally `VITE_API_URL`,
and an arbitrary further key is still admitted (at `any`) rather than
rejected: the augmentation adds one key to an open shape. -/
theorem c4_effective_shape_is_open_merge :
    ∃ eff : InterfaceDecl,
      mergeDecl viteClientEnvDecl ImportMetaEnvDecl = some eff ∧
      eff.stringIndex = true ∧
      checkFieldAccess eff.fields "VITE_API_URL" = some TSType.string ∧
      checkFieldAccess eff.fields "BASE_URL" = some TSType.string ∧
      checkFieldAccess eff.fields "MODE" = some TSType.string ∧
      checkFieldAccess eff.fields "DEV" = some TSType.boolean ∧
      checkFieldAccess eff.fields "PROD" = some TSType.boolean ∧
      checkFieldAccess eff.fields "SSR" = some TSType.boolean ∧
      checkAccessDecl eff "SOME_OTHER_KEY" = some TSType.any := by
  refine ⟨⟨⟨"VITE_API_URL", true, true, TSType.string⟩ :: viteClientEnvFields,
    true⟩, ?_, rfl, ?_, ?_, ?_, ?_, ?_, ?_, ?_⟩ <;> decide

/-- C5: the `env` of every typed `ImportMeta` value denotes a raw object that
structurally conforms to the declared `ImportMetaEnv` shape. -/
theorem c5_env_conforms (m : ImportMeta) :
    conformsTo ImportMetaEnvFields (encodeEnv m.env) = true := by
  obtain ⟨⟨v⟩⟩ := m
  cases v with
  | none =>
    decide
  | some s =>
    simp [conformsTo, encodeEnv, ImportMetaEnvFields, fieldOk, keyDeclared,
      lookupVal, lookupField, typeMatches]

/-- C6: declaration merging of each interface of `vite-env.d.ts` with an
independent identical declaration produces no conflict and yields the same
shape: the augmentation is idempotent under merging. -/
theorem c6_merge_idempotent :
    mergeDecl ImportMetaEnvDecl ImportMetaEnvDecl = some ImportMetaEnvDecl ∧
    mergeDecl ImportMetaDecl ImportMetaDecl = some ImportMetaDecl := by
  decide

/-- C7: the file emits no executable JavaScript, so under every statement
semantics over every program-state type, executing the file's emitted code
leaves every state unchanged: no I/O, no environment loading, no defaults. -/
theorem c7_no_runtime_effect (σ : Type) (step : Stmt → σ → σ) (s : σ) :
    emitFile viteEnvDts = [] ∧ runStmts step (emitFile viteEnvDts) s = s :=
  ⟨rfl, rfl⟩

/-- C8: both declared shapes are immutable: every member of both interfaces
is `readonly`, no assignment to any key of either shape type-checks, and a
read of the field leaves the environment value unchanged. -/
theorem c8_no_mutable_state (k : String) (e : ImportMetaEnv) :
    canAssign ImportMetaEnvFields k = false ∧
    canAssign ImportMetaFields k = false ∧
    ImportMetaEnvFields.all FieldDecl.readonly = true ∧
    ImportMetaFields.all FieldDecl.readonly = true ∧
    readFieldSt e = (e.VITE_API_URL, e) := by
  refine ⟨?_, ?_, rfl, rfl, rfl⟩
  · by_cases hk : k = "VITE_API_URL"
    · subst hk
      rfl
    · have h2 : ¬("VITE_API_URL" = k) := fun hh => hk hh.symm
      simp [canAssign, lookupField, ImportMetaEnvFields, h2]
  · by_cases hk : k = "env"
    · subst hk
      rfl
    · have h2 : ¬("env" = k) := fun hh => hk hh.symm
      simp [canAssign, lookupField, ImportMetaFields, h2]

/-- C9: the `env` member of `ImportMeta` is declared non-optional, and on
every typed `ImportMeta` value the raw read of `env` is always present,
yielding exactly the encoded environment, even though `VITE_API_URL` inside
it may be absent. -/
theorem c9_env_always_present (m : ImportMeta) :
    lookupField ImportMetaFields "env" =
      some ⟨"env", false, true, TSType.iface "ImportMetaEnv"⟩ ∧
    getKey (encodeMeta m) "env" = some (encodeEnv m.env) :=
  ⟨rfl, rfl⟩

/-- C10: reading the environment is deterministic and pure: equal environment
values give equal reads of `VITE_API_URL`, and equal `ImportMeta` values give
equal reads of `env`. -/
theorem c10_read_deterministic (e1 e2 : ImportMetaEnv) (m1 m2 : ImportMeta)
    (he : e1 = e2) (hm : m1 = m2) :
    readVITE_API_URL e1 = readVITE_API_URL e2 ∧ readEnv m1 = readEnv m2 := by
  subst he
  subst hm
  exact ⟨rfl, rfl⟩

/-- Witness for C10 at concrete equal inputs. -/
theorem c10_read_deterministic_witness :
    readVITE_API_URL ⟨some "http://a"⟩ = readVITE_API_URL ⟨some "http://a"⟩ ∧
    readEnv ⟨⟨none⟩⟩ = readEnv ⟨⟨none⟩⟩ :=
  c10_read_deterministic ⟨some "http://a"⟩ ⟨some "http://a"⟩ ⟨⟨none⟩⟩ ⟨⟨none⟩⟩
    rfl rfl

end ViteEnv
